import Mathlib

/-!
Verification of the TopoNetX core entities (`Simplex` in
`toponetx/classes/simplex.py` and `Cell` in `toponetx/classes/cell.py`)
against their natural-language specification.

The Python code is shallowly embedded: node identifiers are modelled as
integers (for `Cell`) and naturals (for `Simplex`), Python exceptions become
an explicit error type threaded through `Except`, and the mutable attribute
dictionaries become immutable association lists.  The `Atom` base class lives
in `toponetx/classes/complex.py`, which is not part of the sources at hand;
following the spec, it only stores the element tuple, the name and the
property mapping, which the `PyCell` structure records directly.
-/

namespace TopoNetX

/-- The kinds of Python exception the embedded code can raise. -/
inductive PyErr
  | valueError
  | typeError
  | indexError
  | keyError
deriving DecidableEq

instance {ε α : Type} [DecidableEq ε] [DecidableEq α] : DecidableEq (Except ε α) := fun x y =>
  match x, y with
  | .ok a, .ok b =>
    if h : a = b then .isTrue (by rw [h]) else .isFalse (fun hc => h (Except.ok.inj hc))
  | .error a, .error b =>
    if h : a = b then .isTrue (by rw [h]) else .isFalse (fun hc => h (Except.error.inj hc))
  | .ok _, .error _ => .isFalse (fun hc => Except.noConfusion hc)
  | .error _, .ok _ => .isFalse (fun hc => Except.noConfusion hc)

/-- The kind of Python sequence handed to `Cell.is_valid_cell`: a list or a
tuple.  The distinction matters because `elements[1:] + [elements[0]]`
concatenates a slice of the input with a list, which is a `TypeError` when the
input is a tuple. -/
inductive SeqKind
  | pylist
  | pytuple
deriving DecidableEq

/-- The expression `elements[1:] + [elements[0]]` from `Cell.__init__` and
`Cell.is_valid_cell`.  Python evaluates the slice (total), then `elements[0]`
(an `IndexError` on an empty sequence), then the concatenation (a `TypeError`
when `elements` is a tuple, because a tuple cannot be concatenated with a
list). -/
def sliceConcat (kind : SeqKind) (elements : List ℤ) : Except PyErr (List ℤ) :=
  match elements with
  | [] => .error .indexError
  | x :: _ =>
    if kind = SeqKind.pytuple then .error .typeError
    else .ok (elements.drop 1 ++ [x])

/-- The boundary edge list `list(zip_longest(elements, elements[1:] + [elements[0]]))`
built by `Cell.__init__` on a (successfully rotated) list input: both zipped
lists have the same length, so `zip_longest` is a plain zip. -/
def boundaryOf (elements : List ℤ) : List (ℤ × ℤ) :=
  match elements with
  | [] => []
  | x :: _ => elements.zip (elements.drop 1 ++ [x])

/-- The regular-cell validation loop of `Cell.__init__`: inserting each edge
source into `_adjdict` raises exactly when a source node repeats. -/
def hasDupSource (b : List (ℤ × ℤ)) : Bool :=
  !decide (b.map Prod.fst).Nodup

/-- The non-regular validation loop of `Cell.__init__`: scan the boundary for
a self-loop edge `e[0] == e[1]`. -/
def hasSelfLoop (b : List (ℤ × ℤ)) : Bool :=
  b.any fun e => decide (e.1 = e.2)

/-- A constructed `Cell`.  The `elements`, `name` and `props` fields are the
state the `Atom` base class stores (modelled from the spec: `complex.py` is
not among the sources); `regular` is `self._regular` and `boundary` is
`self._boundary`. -/
structure PyCell where
  elements : List ℤ
  name : String
  regular : Bool
  props : List (String × ℤ)
  boundary : List (ℤ × ℤ)
deriving DecidableEq

/-- `Cell.__init__`: store the attributes, convert `elements` to a list,
build the boundary via `sliceConcat`/zip, then validate: length must exceed 1,
a regular cell must have no repeated boundary-edge source, a non-regular cell
must have no self-loop edge.  Every violation is a `ValueError`, but the
boundary construction itself can fail first (empty input). -/
def mkCell (elements : List ℤ) (name : String) (regular : Bool)
    (props : List (String × ℤ)) : Except PyErr PyCell := do
  let rot ← sliceConcat SeqKind.pylist elements
  let b := elements.zip rot
  if elements.length ≤ 1 then
    throw PyErr.valueError
  else if regular then
    if hasDupSource b then throw PyErr.valueError
    else pure (PyCell.mk elements name regular props b)
  else
    if hasSelfLoop b then throw PyErr.valueError
    else pure (PyCell.mk elements name regular props b)

/-- `Cell.is_valid_cell(elements, regular=False)`: the same computation as
the constructor validation, returning `False` instead of raising on a
validation failure.  The input arrives as whatever sequence the caller holds,
so the rotation step keeps its `SeqKind`-dependent failure modes. -/
def is_valid_cell (kind : SeqKind) (elements : List ℤ) (regular : Bool) :
    Except PyErr Bool := do
  let rot ← sliceConcat kind elements
  let b := elements.zip rot
  if elements.length ≤ 1 then pure false
  else if regular then pure (!hasDupSource b)
  else pure (!hasSelfLoop b)

/-- The argument passed to `Cell.sign`: either a non-iterable object or an
iterable of nodes. -/
inductive EdgeArg
  | notIterable
  | iter (l : List ℤ)
deriving DecidableEq

/-- `Cell.sign(edge)`: `TypeError` for a non-iterable, then for a 2-element
iterable return `1` when `tuple(edge)` is a boundary edge, `-1` when the
reversed tuple is, and raise `KeyError` otherwise; any other arity is a
`ValueError`. -/
def cellSign (c : PyCell) (edge : EdgeArg) : Except PyErr ℤ :=
  match edge with
  | .notIterable => .error .typeError
  | .iter [a, b] =>
    if (a, b) ∈ c.boundary then .ok 1
    else if (b, a) ∈ c.boundary then .ok (-1)
    else .error .keyError
  | .iter _ => .error .valueError

/-- `Cell.reverse()`: construct a new cell from the reversed element sequence
with the same name, regularity flag and properties (running the constructor,
validation included). -/
def cellReverse (c : PyCell) : Except PyErr PyCell :=
  mkCell c.elements.reverse c.name c.regular c.props

/-- `Cell.clone()`: rebuild from the same data. -/
def cellClone (c : PyCell) : Except PyErr PyCell :=
  mkCell c.elements c.name c.regular c.props

/-- One `deque.rotate()` step from `Cell._are_homotopic`: move the last
element of the deque to the front. -/
def rotateRightOnce (l : List ℤ) : List ℤ :=
  match l.reverse with
  | [] => []
  | x :: rest => x :: rest.reverse

/-- `Cell._are_homotopic(cell1, cell)` on the element sequences: reject when
the lengths differ, reject when the `Counter` multisets differ, then rotate a
deque holding `seq` one step at a time, `len(seq)` times, comparing against
`cell1`'s elements after each step. -/
def areHomotopic (cell1 seq : List ℤ) : Bool :=
  if cell1.length ≠ seq.length then false
  else if Multiset.ofList cell1 ≠ Multiset.ofList seq then false
  else (List.range seq.length).any fun k => decide (rotateRightOnce^[k + 1] seq = cell1)

/-- `Cell.is_homotopic_to(cell)`: `_are_homotopic(self, cell)` or, failing
that, `_are_homotopic(self.reverse(), cell)` — the second disjunct constructs
the reversed cell, validation included, so the result stays in `Except`.
A `Cell` argument contributes its element sequence. -/
def is_homotopic_to (c : PyCell) (other : List ℤ) : Except PyErr Bool :=
  if areHomotopic c.elements other then .ok true
  else do
    let r ← cellReverse c
    pure (areHomotopic r.elements other)

/-- A constructed `Simplex`.  `objId` is the CPython object identity: the
class defines neither `__eq__` nor `__hash__`, so instances compare and hash
by identity, and two simultaneously live instances have distinct identities.
`nodes` is the `frozenset` of elements. -/
structure PySimplex where
  objId : ℕ
  nodes : Finset ℕ
  name : String
deriving DecidableEq

/-- `Simplex.__init__` (with `construct_tree` left out of the state: the face
set is recomputed by `construct_simplex_tree` below): store
`frozenset(elements)` and raise `ValueError` when the input had duplicates,
i.e. when the deduplicated size differs from the input length.  The fresh
object identity of the new instance is passed explicitly. -/
def mkSimplex (objId : ℕ) (elements : List ℕ) (name : String) :
    Except PyErr PySimplex :=
  if elements.toFinset.card ≠ elements.length then .error .valueError
  else .ok (PySimplex.mk objId elements.toFinset name)

/-- Python `==` on two `Simplex` instances: no `__eq__` is defined, so CPython
compares object identities. -/
def simplexPyEq (a b : PySimplex) : Bool :=
  decide (a.objId = b.objId)

/-- Python `hash` of a `Simplex`: no `__hash__` is defined, so CPython hashes
the object identity (injectively on live objects). -/
def simplexPyHash (a : PySimplex) : ℕ :=
  a.objId

/-- A candidate tested by `Simplex.__contains__`: a bare non-iterable
hashable node, a list/tuple of nodes, or a frozenset of nodes. -/
inductive PyCandidate
  | node (n : ℕ)
  | pyseq (l : List ℕ)
  | pyfrozenset (s : Finset ℕ)
deriving DecidableEq

/-- `Simplex.__contains__(e)`: an empty simplex contains nothing; an iterable
of length other than 1 gives `False`; a frozenset `e` is tested `e <= nodes`
and any other iterable is tested `frozenset(e) <= nodes`; a bare hashable `e`
is tested `frozenset(\x7be\x7d) in self.nodes` — element membership of the
frozenset object in `nodes`, which is `False` whenever the nodes are atomic
values such as the integers modelled here, since no integer equals a
frozenset. -/
def simplex_contains (nodes : Finset ℕ) (e : PyCandidate) : Bool :=
  if nodes.card = 0 then false
  else
    match e with
    | .pyseq l => if l.length ≠ 1 then false else decide (l.toFinset ⊆ nodes)
    | .pyfrozenset s => if s.card ≠ 1 then false else decide (s ⊆ nodes)
    | .node _ => false

/-- `Simplex.construct_simplex_tree(elements)`: for every size `r` from
`len(elements)` down to `1`, add one face per `r`-combination of the
(duplicate-free) elements; a combination is identified by its node set.  The
result collects every nonempty subset of the node set. -/
def construct_simplex_tree (s : Finset ℕ) : Finset (Finset ℕ) :=
  (Finset.Icc 1 s.card).biUnion fun r => Finset.powersetCard r s

/-- `Simplex.boundary`: the faces whose size is one less than the simplex's
own size. -/
def simplexBoundary (s : Finset ℕ) : Finset (Finset ℕ) :=
  (construct_simplex_tree s).filter fun t => t.card = s.card - 1

/-! ### Basic facts about the embedded `Cell` constructor -/

theorem mkCell_nil (nm : String) (r : Bool) (p : List (String × ℤ)) :
    mkCell [] nm r p = Except.error PyErr.indexError := rfl

theorem mkCell_cons (x : ℤ) (xs : List ℤ) (nm : String) (r : Bool) (p : List (String × ℤ)) :
    mkCell (x :: xs) nm r p =
      (if (x :: xs).length ≤ 1 then Except.error PyErr.valueError
       else if r then
         if hasDupSource (boundaryOf (x :: xs)) then Except.error PyErr.valueError
         else Except.ok (PyCell.mk (x :: xs) nm r p (boundaryOf (x :: xs)))
       else
         if hasSelfLoop (boundaryOf (x :: xs)) then Except.error PyErr.valueError
         else Except.ok (PyCell.mk (x :: xs) nm r p (boundaryOf (x :: xs)))) := rfl

theorem map_fst_boundaryOf (l : List ℤ) : (boundaryOf l).map Prod.fst = l := by
  cases l with
  | nil => rfl
  | cons x xs =>
    apply List.map_fst_zip
    simp

theorem hasDupSource_boundaryOf (l : List ℤ) :
    hasDupSource (boundaryOf l) = !decide l.Nodup := by
  rw [hasDupSource, map_fst_boundaryOf]

theorem mkCell_eq_ok_iff (l : List ℤ) (nm : String) (r : Bool) (p : List (String × ℤ))
    (c : PyCell) :
    mkCell l nm r p = Except.ok c ↔
      2 ≤ l.length
      ∧ (if r then hasDupSource (boundaryOf l) = false
         else hasSelfLoop (boundaryOf l) = false)
      ∧ c = PyCell.mk l nm r p (boundaryOf l) := by
  cases l with
  | nil => simp [mkCell_nil]
  | cons x xs =>
    rw [mkCell_cons]
    by_cases h1 : (x :: xs).length ≤ 1
    · rw [if_pos h1]
      constructor
      · intro h; exact Except.noConfusion h
      · rintro ⟨h2, -⟩; omega
    · rw [if_neg h1]
      have hlen : 2 ≤ (x :: xs).length := Nat.lt_of_not_le h1
      cases r with
      | true =>
        rw [if_pos rfl]
        by_cases h2 : hasDupSource (boundaryOf (x :: xs)) = true
        · rw [if_pos h2]
          constructor
          · intro h; exact Except.noConfusion h
          · rintro ⟨-, h3, -⟩
            rw [if_pos rfl] at h3
            rw [h2] at h3
            exact Bool.noConfusion h3
        · rw [if_neg h2]
          rw [Bool.not_eq_true] at h2
          constructor
          · intro h
            exact ⟨hlen, by rw [if_pos rfl]; exact h2, (Except.ok.inj h).symm⟩
          · rintro ⟨-, -, h3⟩
            rw [h3]
      | false =>
        rw [if_neg (by simp)]
        by_cases h2 : hasSelfLoop (boundaryOf (x :: xs)) = true
        · rw [if_pos h2]
          constructor
          · intro h; exact Except.noConfusion h
          · rintro ⟨-, h3, -⟩
            rw [if_neg (by simp)] at h3
            rw [h2] at h3
            exact Bool.noConfusion h3
        · rw [if_neg h2]
          rw [Bool.not_eq_true] at h2
          constructor
          · intro h
            exact ⟨hlen, by rw [if_neg (by simp)]; exact h2, (Except.ok.inj h).symm⟩
          · rintro ⟨-, -, h3⟩
            rw [h3]

theorem mkCell_ok_fields {l : List ℤ} {nm : String} {r : Bool} {p : List (String × ℤ)}
    {c : PyCell} (h : mkCell l nm r p = Except.ok c) :
    c = PyCell.mk l nm r p (boundaryOf l) ∧ 2 ≤ l.length := by
  obtain ⟨h1, -, h3⟩ := (mkCell_eq_ok_iff l nm r p c).mp h
  exact ⟨h3, h1⟩

theorem mkCell_ok_reg_nodup {l : List ℤ} {nm : String} {p : List (String × ℤ)}
    {c : PyCell} (h : mkCell l nm true p = Except.ok c) : l.Nodup := by
  obtain ⟨-, h2, -⟩ := (mkCell_eq_ok_iff l nm true p c).mp h
  rw [if_pos rfl, hasDupSource_boundaryOf] at h2
  simpa using h2

theorem mkCell_ok_irreg_noloop {l : List ℤ} {nm : String} {p : List (String × ℤ)}
    {c : PyCell} (h : mkCell l nm false p = Except.ok c) :
    hasSelfLoop (boundaryOf l) = false := by
  obtain ⟨-, h2, -⟩ := (mkCell_eq_ok_iff l nm false p c).mp h
  rw [if_neg (by simp)] at h2
  exact h2

theorem mkCell_ok_reg {l : List ℤ} (nm : String) (p : List (String × ℤ))
    (hlen : 2 ≤ l.length) (hnd : l.Nodup) :
    mkCell l nm true p = Except.ok (PyCell.mk l nm true p (boundaryOf l)) := by
  apply (mkCell_eq_ok_iff l nm true p _).mpr
  refine ⟨hlen, ?_, rfl⟩
  rw [if_pos rfl, hasDupSource_boundaryOf]
  simpa using hnd

theorem mkCell_ok_irreg {l : List ℤ} (nm : String) (p : List (String × ℤ))
    (hlen : 2 ≤ l.length) (hsl : hasSelfLoop (boundaryOf l) = false) :
    mkCell l nm false p = Except.ok (PyCell.mk l nm false p (boundaryOf l)) := by
  apply (mkCell_eq_ok_iff l nm false p _).mpr
  refine ⟨hlen, ?_, rfl⟩
  rw [if_neg (by simp)]
  exact hsl

/-! ### The cyclic boundary, presented edge by edge

`cyc first l` lists the boundary edges of the cyclic sequence `l` closed by
`first`: each element paired with its successor, the last one paired with
`first`. -/

def cyc (first : ℤ) : List ℤ → List (ℤ × ℤ)
  | [] => []
  | [y] => [(y, first)]
  | y :: z :: rest => (y, z) :: cyc first (z :: rest)

/-- Whether some two adjacent elements of the list are equal. -/
def adjEq : List ℤ → Bool
  | [] => false
  | [_] => false
  | y :: z :: rest => decide (y = z) || adjEq (z :: rest)

theorem zip_drop_cyc : ∀ (l : List ℤ) (first : ℤ), l ≠ [] →
    l.zip (l.drop 1 ++ [first]) = cyc first l := by
  intro l
  induction l with
  | nil => intro first h; exact absurd rfl h
  | cons x xs ih =>
    intro first _
    cases xs with
    | nil => rfl
    | cons y ys =>
      show (x, y) :: (y :: ys).zip (ys ++ [first]) = (x, y) :: cyc first (y :: ys)
      rw [← ih first (by simp)]
      rfl

theorem boundaryOf_cons (x : ℤ) (xs : List ℤ) :
    boundaryOf (x :: xs) = cyc x (x :: xs) := by
  rw [boundaryOf]
  exact zip_drop_cyc (x :: xs) x (by simp)

theorem cyc_selfLoop (first : ℤ) : ∀ l : List ℤ,
    hasSelfLoop (cyc first l) = (adjEq l || decide (l.getLast? = some first)) := by
  intro l
  induction l with
  | nil => simp [cyc, adjEq, hasSelfLoop]
  | cons y zs ih =>
    cases zs with
    | nil =>
      simp only [cyc, adjEq, hasSelfLoop, List.any_cons, List.any_nil,
        List.getLast?_singleton, Bool.false_or, Bool.or_false]
      rw [decide_eq_decide]
      simp
    | cons z rest =>
      show hasSelfLoop ((y, z) :: cyc first (z :: rest)) = _
      have h1 : hasSelfLoop ((y, z) :: cyc first (z :: rest)) =
          (decide (y = z) || hasSelfLoop (cyc first (z :: rest))) := by
        simp [hasSelfLoop]
      rw [h1, ih]
      simp only [adjEq, List.getLast?_cons_cons]
      rw [Bool.or_assoc]

theorem adjEq_eq_chain : ∀ l : List ℤ,
    adjEq l = !decide (l.Chain' (fun a b => a ≠ b)) := by
  intro l
  induction l with
  | nil => simp [adjEq]
  | cons y zs ih =>
    cases zs with
    | nil => simp [adjEq]
    | cons z rest =>
      show (decide (y = z) || adjEq (z :: rest)) = _
      rw [ih]
      simp [List.chain'_cons, Decidable.not_not, not_or]
      try tauto

theorem adjEq_reverse (l : List ℤ) : adjEq l.reverse = adjEq l := by
  rw [adjEq_eq_chain, adjEq_eq_chain]
  congr 1
  rw [decide_eq_decide, List.chain'_reverse]
  constructor
  · intro h
    exact h.imp fun a b hab => Ne.symm hab
  · intro h
    exact h.imp fun a b hab => Ne.symm hab


theorem hasSelfLoop_boundary (m : List ℤ) (h : m ≠ []) :
    hasSelfLoop (boundaryOf m) = (adjEq m || decide (m.getLast? = m.head?)) := by
  cases m with
  | nil => exact absurd rfl h
  | cons a as =>
    rw [boundaryOf_cons, cyc_selfLoop]
    rfl

theorem hasSelfLoop_reverse (l : List ℤ) (h : l ≠ []) :
    hasSelfLoop (boundaryOf l.reverse) = hasSelfLoop (boundaryOf l) := by
  rw [hasSelfLoop_boundary l.reverse (by simpa using h), hasSelfLoop_boundary l h,
    adjEq_reverse, List.getLast?_reverse, List.head?_reverse]
  congr 1
  rw [decide_eq_decide]
  exact eq_comm

theorem cellReverse_ok {l : List ℤ} {nm : String} {r : Bool} {p : List (String × ℤ)}
    {c : PyCell} (h : mkCell l nm r p = Except.ok c) :
    cellReverse c = Except.ok (PyCell.mk l.reverse nm r p (boundaryOf l.reverse)) := by
  obtain ⟨hc, hlen⟩ := mkCell_ok_fields h
  have hne : l ≠ [] := by rintro rfl; simp at hlen
  have hlen' : 2 ≤ l.reverse.length := by simpa using hlen
  rw [cellReverse, hc]
  cases r with
  | true =>
    exact mkCell_ok_reg nm p hlen' (List.nodup_reverse.mpr (mkCell_ok_reg_nodup h))
  | false =>
    exact mkCell_ok_irreg nm p hlen'
      ((hasSelfLoop_reverse l hne).trans (mkCell_ok_irreg_noloop h))

theorem mkCell_ok_or_valueError (l : List ℤ) (nm : String) (r : Bool)
    (p : List (String × ℤ)) (h : 2 ≤ l.length) :
    mkCell l nm r p = Except.ok (PyCell.mk l nm r p (boundaryOf l))
    ∨ mkCell l nm r p = Except.error PyErr.valueError := by
  cases l with
  | nil => simp at h
  | cons x xs =>
    rw [mkCell_cons, if_neg (Nat.not_le.mpr h)]
    cases r with
    | true =>
      rw [if_pos rfl]
      by_cases h2 : hasDupSource (boundaryOf (x :: xs)) = true
      · rw [if_pos h2]; right; rfl
      · rw [if_neg h2]; left; rfl
    | false =>
      rw [if_neg (by simp)]
      by_cases h2 : hasSelfLoop (boundaryOf (x :: xs)) = true
      · rw [if_pos h2]; right; rfl
      · rw [if_neg h2]; left; rfl

/-! ### Shared concrete cells -/

/-- The regular cell `Cell((1, 2, 3))` as constructed by the embedded code. -/
def cellOneTwoThree : PyCell :=
  PyCell.mk [1, 2, 3] "" true [] [(1, 2), (2, 3), (3, 1)]

/-- The non-regular cell `Cell((1, 2, 1, 3), regular=False)`, whose boundary
holds both orientations of the edge between nodes 1 and 2. -/
def cellFigureEight : PyCell :=
  PyCell.mk [1, 2, 1, 3] "" false [] [(1, 2), (2, 1), (1, 3), (3, 1)]

/-! ### Claim C3: `is_valid_cell` is not raise-free -/

/-- C3: the claim that `Cell.is_valid_cell(elements, regular)` always returns
a boolean and never raises, agreeing with the construction validation, is
wrong for non-list sequences and for the empty list: on the tuple `(1, 2, 3)`
it raises `TypeError` from `elements[1:] + [elements[0]]` even though
`Cell((1, 2, 3))` constructs fine (the constructor converts to a list first),
and on the empty list it raises `IndexError`; on list inputs of length at
least 1 it does return the construction-validation verdict. -/
theorem is_valid_cell_raises_on_tuple :
    is_valid_cell SeqKind.pytuple [1, 2, 3] false = Except.error PyErr.typeError
    ∧ is_valid_cell SeqKind.pytuple [1, 2, 3] true = Except.error PyErr.typeError
    ∧ (∃ c, mkCell [1, 2, 3] "" true [] = Except.ok c)
    ∧ is_valid_cell SeqKind.pylist [] false = Except.error PyErr.indexError
    ∧ is_valid_cell SeqKind.pylist [1, 2, 3] true = Except.ok true
    ∧ is_valid_cell SeqKind.pylist [1, 2, 1, 2] true = Except.ok false := by
  exact ⟨rfl, rfl, ⟨_, rfl⟩, rfl, by decide, by decide⟩

/-! ### Claim C4: construction from fewer than 2 elements -/

/-- C4: constructing a cell from the empty collection does fail synchronously
with no instance observable, but with `IndexError` (from `elements[0]` while
building the boundary, which runs before the length check), not with the
claimed `ValueError`; a single-element collection does produce the
`ValueError` of the length check. -/
theorem cell_empty_construction_indexError :
    mkCell ([] : List ℤ) "" true [] = Except.error PyErr.indexError
    ∧ mkCell ([] : List ℤ) "" false [] = Except.error PyErr.indexError
    ∧ mkCell ([5] : List ℤ) "" true [] = Except.error PyErr.valueError
    ∧ mkCell ([5] : List ℤ) "" false [] = Except.error PyErr.valueError := by
  exact ⟨rfl, rfl, by decide, by decide⟩

/-! ### Claim C7: the two validation regimes of the constructor -/

/-- C7: for element sequences of length at least 2, construction with
`regular=True` fails with a `ValueError` exactly when some node repeats among
the boundary-edge sources, and construction with `regular=False` fails with a
`ValueError` exactly when some boundary edge is a self-loop; in particular
`Cell((1, 2, 1, 2), regular=False)` succeeds while the same sequence with
`regular=True` fails. -/
theorem cell_init_validation (l : List ℤ) (nm : String) (p : List (String × ℤ))
    (h : 2 ≤ l.length) :
    ((∃ c, mkCell l nm true p = Except.ok c) ↔ ((boundaryOf l).map Prod.fst).Nodup)
    ∧ (mkCell l nm true p = Except.error PyErr.valueError ↔
        ¬ ((boundaryOf l).map Prod.fst).Nodup)
    ∧ ((∃ c, mkCell l nm false p = Except.ok c) ↔ ∀ e ∈ boundaryOf l, e.1 ≠ e.2)
    ∧ (mkCell l nm false p = Except.error PyErr.valueError ↔
        ∃ e ∈ boundaryOf l, e.1 = e.2)
    ∧ (∃ c, mkCell [1, 2, 1, 2] "" false [] = Except.ok c)
    ∧ mkCell [1, 2, 1, 2] "" true [] = Except.error PyErr.valueError := by
  have hdup : hasDupSource (boundaryOf l) = false ↔ ((boundaryOf l).map Prod.fst).Nodup := by
    rw [hasDupSource]; simp
  have hloop : hasSelfLoop (boundaryOf l) = false ↔ ∀ e ∈ boundaryOf l, e.1 ≠ e.2 := by
    rw [hasSelfLoop, ← Bool.not_eq_true, List.any_eq_true]
    push_neg
    simp
  have hokr : (∃ c, mkCell l nm true p = Except.ok c) ↔ ((boundaryOf l).map Prod.fst).Nodup := by
    constructor
    · rintro ⟨c, hc⟩
      obtain ⟨-, h2, -⟩ := (mkCell_eq_ok_iff l nm true p c).mp hc
      rw [if_pos rfl] at h2
      exact hdup.mp h2
    · intro hnd
      exact ⟨_, (mkCell_eq_ok_iff l nm true p _).mpr
        ⟨h, by rw [if_pos rfl]; exact hdup.mpr hnd, rfl⟩⟩
  have hoki : (∃ c, mkCell l nm false p = Except.ok c) ↔ ∀ e ∈ boundaryOf l, e.1 ≠ e.2 := by
    constructor
    · rintro ⟨c, hc⟩
      obtain ⟨-, h2, -⟩ := (mkCell_eq_ok_iff l nm false p c).mp hc
      rw [if_neg (by simp)] at h2
      exact hloop.mp h2
    · intro hnl
      exact ⟨_, (mkCell_eq_ok_iff l nm false p _).mpr
        ⟨h, by rw [if_neg (by simp)]; exact hloop.mpr hnl, rfl⟩⟩
  refine ⟨hokr, ?_, hoki, ?_, ⟨_, rfl⟩, by decide⟩
  · constructor
    · intro herr hnd
      obtain ⟨c, hc⟩ := hokr.mpr hnd
      rw [herr] at hc
      exact Except.noConfusion hc
    · intro hnd
      rcases mkCell_ok_or_valueError l nm true p h with hok | herr
      · exact absurd (hokr.mp ⟨_, hok⟩) hnd
      · exact herr
  · constructor
    · intro herr
      by_contra hne
      push_neg at hne
      obtain ⟨c, hc⟩ := hoki.mpr hne
      rw [herr] at hc
      exact Except.noConfusion hc
    · rintro ⟨e, he, heq⟩
      rcases mkCell_ok_or_valueError l nm false p h with hok | herr
      · exact absurd heq ((hoki.mp ⟨_, hok⟩) e he)
      · exact herr

/-- Witness for C7 at the concrete sequence `[1, 2, 3]`. -/
theorem cell_init_validation_witness :
    (∃ c, mkCell [1, 2, 3] "" true [] = Except.ok c)
    ∧ mkCell [1, 2, 1, 2] "" true [] = Except.error PyErr.valueError :=
  ⟨(cell_init_validation [1, 2, 3] "" [] (by decide)).1.mpr (by decide),
    (cell_init_validation [1, 2, 3] "" [] (by decide)).2.2.2.2.2⟩

/-! ### Claim C9: reversal round-trip -/

/-- C9: for every successfully constructed cell, `reverse()` succeeds and
returns a new cell whose element sequence is exactly reversed with the same
name, regularity flag and properties, and reversing twice restores the
original element sequence. -/
theorem cell_reverse_roundtrip (l : List ℤ) (nm : String) (r : Bool)
    (p : List (String × ℤ)) (c : PyCell) (h : mkCell l nm r p = Except.ok c) :
    ∃ c2 c3,
      cellReverse c = Except.ok c2
      ∧ c2.elements = l.reverse ∧ c2.name = nm ∧ c2.regular = r ∧ c2.props = p
      ∧ cellReverse c2 = Except.ok c3 ∧ c3.elements = l := by
  have h2 := cellReverse_ok h
  have hc := (mkCell_ok_fields h).1
  have h2' : mkCell l.reverse nm r p =
      Except.ok (PyCell.mk l.reverse nm r p (boundaryOf l.reverse)) := by
    rw [← h2, cellReverse, hc]
  have h3 := cellReverse_ok h2'
  exact ⟨_, _, h2, rfl, rfl, rfl, rfl, h3, List.reverse_reverse l⟩

/-- Witness for C9 at `Cell((1, 2, 3))`. -/
theorem cell_reverse_roundtrip_witness :
    ∃ c2 c3,
      cellReverse cellOneTwoThree = Except.ok c2
      ∧ c2.elements = [1, 2, 3].reverse ∧ c2.name = "" ∧ c2.regular = true
      ∧ c2.props = [] ∧ cellReverse c2 = Except.ok c3 ∧ c3.elements = [1, 2, 3] :=
  cell_reverse_roundtrip [1, 2, 3] "" true [] cellOneTwoThree rfl

/-! ### Claim C6: the sign of a boundary edge -/

/-- C6 counterexample: the spec's concrete example claims
`Cell((1,2,3)).sign((1,3))` raises the not-in-boundary failure, but the
closing boundary edge of the cell is `(3, 1)`, the reverse of `(1, 3)`, so
the code returns `-1` and raises nothing. -/
theorem cell_sign_reversed_closing_edge :
    mkCell [1, 2, 3] "" true [] = Except.ok cellOneTwoThree
    ∧ cellSign cellOneTwoThree (EdgeArg.iter [1, 3]) = Except.ok (-1)
    ∧ cellSign cellOneTwoThree (EdgeArg.iter [1, 3]) ≠ Except.error PyErr.keyError := by
  exact ⟨by decide, by decide, by decide⟩

/-- C6 (amended): `sign` raises `TypeError` on a non-iterable, `ValueError`
on an iterable whose length is not 2, returns `1` when the given orientation
is a boundary edge, `-1` when (the given orientation absent) the reversed
orientation is, and raises `KeyError` when neither is; concretely for
`Cell((1,2,3))`, `sign((2,3))` is `1`, `sign((3,2))` is `-1`, and
`sign((1,3))` is `-1` because the reversed edge `(3,1)` is the closing
boundary edge. -/
theorem cell_sign_characterization (c : PyCell) (a b : ℤ) (l : List ℤ)
    (hl : l.length ≠ 2) :
    cellSign c EdgeArg.notIterable = Except.error PyErr.typeError
    ∧ cellSign c (EdgeArg.iter l) = Except.error PyErr.valueError
    ∧ ((a, b) ∈ c.boundary → cellSign c (EdgeArg.iter [a, b]) = Except.ok 1)
    ∧ ((a, b) ∉ c.boundary → (b, a) ∈ c.boundary →
        cellSign c (EdgeArg.iter [a, b]) = Except.ok (-1))
    ∧ ((a, b) ∉ c.boundary → (b, a) ∉ c.boundary →
        cellSign c (EdgeArg.iter [a, b]) = Except.error PyErr.keyError)
    ∧ cellSign cellOneTwoThree (EdgeArg.iter [2, 3]) = Except.ok 1
    ∧ cellSign cellOneTwoThree (EdgeArg.iter [3, 2]) = Except.ok (-1)
    ∧ cellSign cellOneTwoThree (EdgeArg.iter [1, 3]) = Except.ok (-1) := by
  refine ⟨rfl, ?_, ?_, ?_, ?_, by decide, by decide, by decide⟩
  · rcases l with _ | ⟨x, _ | ⟨y, _ | ⟨z, rest⟩⟩⟩
    · rfl
    · rfl
    · exact absurd rfl hl
    · rfl
  · intro hab
    show (if (a, b) ∈ c.boundary then Except.ok 1
      else if (b, a) ∈ c.boundary then Except.ok (-1)
      else Except.error PyErr.keyError) = Except.ok 1
    rw [if_pos hab]
  · intro hab hba
    show (if (a, b) ∈ c.boundary then Except.ok 1
      else if (b, a) ∈ c.boundary then Except.ok (-1)
      else Except.error PyErr.keyError) = Except.ok (-1)
    rw [if_neg hab, if_pos hba]
  · intro hab hba
    show (if (a, b) ∈ c.boundary then Except.ok 1
      else if (b, a) ∈ c.boundary then Except.ok (-1)
      else Except.error PyErr.keyError) = Except.error PyErr.keyError
    rw [if_neg hab, if_neg hba]

/-- Witness for C6 at `Cell((1, 2, 3))` with edge `(2, 3)` and the length-1
iterable `[1]`. -/
theorem cell_sign_characterization_witness :
    cellSign cellOneTwoThree (EdgeArg.iter [2, 3]) = Except.ok 1
    ∧ cellSign cellOneTwoThree (EdgeArg.iter [1]) = Except.error PyErr.valueError :=
  ⟨(cell_sign_characterization cellOneTwoThree 2 3 [1] (by decide)).2.2.1 (by decide),
    (cell_sign_characterization cellOneTwoThree 2 3 [1] (by decide)).2.1⟩

/-! ### Claim C10: forward orientation takes precedence in `sign` -/

/-- C10: `sign` tests the given orientation before the reversed one, so for a
non-regular cell whose boundary holds both orientations of an edge — such as
`Cell((1, 2, 1, 3), regular=False)` with both `(1, 2)` and `(2, 1)` — `sign`
returns `1` for either orientation, and never returns `-1` for an edge whose
given orientation is itself a boundary edge. -/
theorem cell_sign_forward_precedence (c : PyCell) (a b : ℤ)
    (h : (a, b) ∈ c.boundary) :
    cellSign c (EdgeArg.iter [a, b]) = Except.ok 1
    ∧ mkCell [1, 2, 1, 3] "" false [] = Except.ok cellFigureEight
    ∧ (1, 2) ∈ cellFigureEight.boundary
    ∧ (2, 1) ∈ cellFigureEight.boundary
    ∧ cellSign cellFigureEight (EdgeArg.iter [1, 2]) = Except.ok 1
    ∧ cellSign cellFigureEight (EdgeArg.iter [2, 1]) = Except.ok 1 := by
  refine ⟨?_, by decide, by decide, by decide, by decide, by decide⟩
  show (if (a, b) ∈ c.boundary then Except.ok 1
    else if (b, a) ∈ c.boundary then Except.ok (-1)
    else Except.error PyErr.keyError) = Except.ok 1
  rw [if_pos h]

/-- Witness for C10 at the figure-eight cell and the edge `(2, 1)`. -/
theorem cell_sign_forward_precedence_witness :
    cellSign cellFigureEight (EdgeArg.iter [2, 1]) = Except.ok 1 :=
  (cell_sign_forward_precedence cellFigureEight 2 1 (by decide)).1

/-! ### Claim C8: face and boundary counts of a simplex -/

theorem construct_simplex_tree_eq (s : Finset ℕ) :
    construct_simplex_tree s = s.powerset.erase ∅ := by
  ext t
  simp only [construct_simplex_tree, Finset.mem_biUnion, Finset.mem_Icc,
    Finset.mem_powersetCard, Finset.mem_erase, Finset.mem_powerset]
  constructor
  · rintro ⟨r, ⟨hr1, -⟩, hsub, hcard⟩
    refine ⟨?_, hsub⟩
    intro ht
    rw [ht] at hcard
    simp only [Finset.card_empty] at hcard
    omega
  · rintro ⟨hne, hsub⟩
    exact ⟨t.card,
      ⟨Finset.card_pos.mpr (Finset.nonempty_iff_ne_empty.mpr hne),
        Finset.card_le_card hsub⟩, hsub, rfl⟩

/-- C8: for a simplex over `n` distinct nodes with the tree constructed, the
face set holds exactly `2 ^ n - 1` members (one per nonempty subset of the
nodes, the simplex itself included), and every member of the boundary has
exactly `n - 1` nodes. -/
theorem simplex_faces_count (s : Finset ℕ) :
    (construct_simplex_tree s).card = 2 ^ s.card - 1
    ∧ ∀ t ∈ simplexBoundary s, t.card = s.card - 1 := by
  constructor
  · rw [construct_simplex_tree_eq,
      Finset.card_erase_of_mem (Finset.empty_mem_powerset s), Finset.card_powerset]
  · intro t ht
    exact (Finset.mem_filter.mp ht).2

/-- Witness for C8 at the triangle simplex on nodes 1, 2, 3. -/
theorem simplex_faces_count_witness :
    (construct_simplex_tree ([1, 2, 3].toFinset)).card = 2 ^ ([1, 2, 3].toFinset).card - 1
    ∧ ([1, 2].toFinset).card = ([1, 2, 3].toFinset).card - 1 :=
  ⟨(simplex_faces_count ([1, 2, 3].toFinset)).1,
    (simplex_faces_count ([1, 2, 3].toFinset)).2 ([1, 2].toFinset) (by decide)⟩

/-! ### Claim C1: `Simplex` equality and hashing -/

/-- C1 counterexample: two `Simplex` instances built from `[1, 2]` and
`[2, 1]` hold equal node frozensets, yet — `Simplex` defining neither
`__eq__` nor `__hash__` — the instances compare unequal and hash unequal,
because CPython falls back to object identity and the two freshly
constructed, simultaneously live objects have distinct identities. -/
theorem simplex_identity_counterexample :
    mkSimplex 0 [1, 2] "" = Except.ok (PySimplex.mk 0 ([1, 2].toFinset) "")
    ∧ mkSimplex 1 [2, 1] "" = Except.ok (PySimplex.mk 1 ([2, 1].toFinset) "")
    ∧ ([2, 1].toFinset : Finset ℕ) = [1, 2].toFinset
    ∧ simplexPyEq (PySimplex.mk 0 ([1, 2].toFinset) "")
        (PySimplex.mk 1 ([2, 1].toFinset) "") = false
    ∧ simplexPyHash (PySimplex.mk 0 ([1, 2].toFinset) "")
      ≠ simplexPyHash (PySimplex.mk 1 ([2, 1].toFinset) "") := by
  exact ⟨rfl, rfl, by decide, rfl, by decide⟩

/-- C1 (amended): two `Simplex` instances constructed from permutations of
the same duplicate-free nodes have equal `nodes` frozensets, but the
instances themselves compare equal — and hash equal — precisely when they are
the same object, since the class inherits identity-based equality and
hashing; a set of `Simplex` therefore does not deduplicate distinct
instances built from the same nodes. -/
theorem simplex_identity_equality (i j : ℕ) (l1 l2 : List ℕ) (nm1 nm2 : String)
    (s1 s2 : PySimplex) (hp : l1.Perm l2)
    (h1 : mkSimplex i l1 nm1 = Except.ok s1) (h2 : mkSimplex j l2 nm2 = Except.ok s2) :
    s1.nodes = s2.nodes
    ∧ (simplexPyEq s1 s2 = true ↔ i = j)
    ∧ (simplexPyHash s1 = simplexPyHash s2 ↔ i = j) := by
  rw [mkSimplex] at h1 h2
  by_cases hd1 : l1.toFinset.card ≠ l1.length
  · rw [if_pos hd1] at h1
    exact Except.noConfusion h1
  by_cases hd2 : l2.toFinset.card ≠ l2.length
  · rw [if_pos hd2] at h2
    exact Except.noConfusion h2
  rw [if_neg hd1] at h1
  rw [if_neg hd2] at h2
  obtain rfl : PySimplex.mk i l1.toFinset nm1 = s1 := Except.ok.inj h1
  obtain rfl : PySimplex.mk j l2.toFinset nm2 = s2 := Except.ok.inj h2
  refine ⟨?_, ?_, ?_⟩
  · show l1.toFinset = l2.toFinset
    ext y
    simp [List.mem_toFinset, hp.mem_iff]
  · simp [simplexPyEq]
  · simp [simplexPyHash]

/-- Witness for C1 at the permuted node lists `[1, 2]` and `[2, 1]`. -/
theorem simplex_identity_equality_witness :
    (PySimplex.mk 0 ([1, 2].toFinset) "").nodes = (PySimplex.mk 1 ([2, 1].toFinset) "").nodes
    ∧ (simplexPyEq (PySimplex.mk 0 ([1, 2].toFinset) "")
        (PySimplex.mk 1 ([2, 1].toFinset) "") = true ↔ (0 : ℕ) = 1)
    ∧ (simplexPyHash (PySimplex.mk 0 ([1, 2].toFinset) "")
        = simplexPyHash (PySimplex.mk 1 ([2, 1].toFinset) "") ↔ (0 : ℕ) = 1) :=
  simplex_identity_equality 0 1 [1, 2] [2, 1] "" "" _ _ (by decide) rfl rfl

/-! ### Claim C2: `Simplex.__contains__` -/

/-- C2 counterexample: for the simplex on nodes 1, 2, 3, the bare node `1` is
in the node set yet `1 in S` is false (the code tests whether the frozenset
holding 1 is itself a member of the node set), and the frozenset of 1, 2 is a
subset of the node set yet is reported not contained (the subset test is only
reached for candidates of length 1). -/
theorem simplex_contains_counterexample :
    simplex_contains ([1, 2, 3].toFinset) (PyCandidate.node 1) = false
    ∧ (1 : ℕ) ∈ ([1, 2, 3].toFinset : Finset ℕ)
    ∧ simplex_contains ([1, 2, 3].toFinset) (PyCandidate.pyfrozenset ([1, 2].toFinset)) = false
    ∧ ([1, 2].toFinset : Finset ℕ) ⊆ [1, 2, 3].toFinset := by
  exact ⟨rfl, by decide, by decide, by decide⟩

/-- C2 (amended): for a non-empty simplex, a list/tuple candidate is reported
contained exactly when it has length 1 and its element is a node; a frozenset
candidate exactly when it has size 1 and is a subset of the node set (a
genuine subset of any other size is reported not contained); an iterable of
length other than 1 gives false without raising; and a bare hashable node
always gives false over atomic nodes, because the code tests membership of
`frozenset` of the candidate as an element of the node set. -/
theorem simplex_contains_characterization (nodes : Finset ℕ) (l : List ℕ)
    (s : Finset ℕ) (x : ℕ) (h : nodes ≠ ∅) :
    (simplex_contains nodes (PyCandidate.pyseq l) = true ↔
      l.length = 1 ∧ ∀ y ∈ l, y ∈ nodes)
    ∧ (simplex_contains nodes (PyCandidate.pyfrozenset s) = true ↔
        s.card = 1 ∧ s ⊆ nodes)
    ∧ simplex_contains nodes (PyCandidate.node x) = false
    ∧ (l.length ≠ 1 → simplex_contains nodes (PyCandidate.pyseq l) = false) := by
  have hc : ¬ nodes.card = 0 := by
    simpa [Finset.card_eq_zero] using h
  refine ⟨?_, ?_, ?_, ?_⟩
  · show (if nodes.card = 0 then false
      else if l.length ≠ 1 then false else decide (l.toFinset ⊆ nodes)) = true ↔ _
    rw [if_neg hc]
    by_cases hl : l.length = 1
    · rw [if_neg (by simpa using hl)]
      simp [hl, decide_eq_true_eq, Finset.subset_iff, List.mem_toFinset]
    · rw [if_pos hl]
      simp [hl]
  · show (if nodes.card = 0 then false
      else if s.card ≠ 1 then false else decide (s ⊆ nodes)) = true ↔ _
    rw [if_neg hc]
    by_cases hs : s.card = 1
    · rw [if_neg (by simpa using hs)]
      simp [hs, decide_eq_true_eq]
    · rw [if_pos hs]
      simp [hs]
  · show (if nodes.card = 0 then false else false) = false
    rw [if_neg hc]
  · intro hl
    show (if nodes.card = 0 then false
      else if l.length ≠ 1 then false else decide (l.toFinset ⊆ nodes)) = false
    rw [if_neg hc, if_pos hl]

/-- Witness for C2 at the simplex on nodes 1, 2 with candidates `[1]`,
the frozenset of 2, and the bare node 5. -/
theorem simplex_contains_characterization_witness :
    (simplex_contains ([1, 2].toFinset) (PyCandidate.pyseq [1]) = true ↔
      ([1] : List ℕ).length = 1 ∧ ∀ y ∈ ([1] : List ℕ), y ∈ ([1, 2].toFinset : Finset ℕ))
    ∧ (simplex_contains ([1, 2].toFinset) (PyCandidate.pyfrozenset ([2].toFinset)) = true ↔
        ([2].toFinset : Finset ℕ).card = 1 ∧ ([2].toFinset : Finset ℕ) ⊆ [1, 2].toFinset)
    ∧ simplex_contains ([1, 2].toFinset) (PyCandidate.node 5) = false
    ∧ (([1] : List ℕ).length ≠ 1 →
        simplex_contains ([1, 2].toFinset) (PyCandidate.pyseq [1]) = false) :=
  simplex_contains_characterization ([1, 2].toFinset) [1] ([2].toFinset) 5 (by decide)

/-! ### Claim C5: the homotopy test -/

theorem rotateRightOnce_concat (t : List ℤ) (x : ℤ) :
    rotateRightOnce (t ++ [x]) = x :: t := by
  simp [rotateRightOnce]

theorem rotateRightOnce_eq_rotate (l : List ℤ) :
    rotateRightOnce l = l.rotate (l.length - 1) := by
  induction l using List.reverseRecOn with
  | nil => rfl
  | append_singleton t x ih =>
    rw [rotateRightOnce_concat]
    have hlen : (t ++ [x]).length - 1 = t.length := by simp
    rw [hlen, List.rotate_eq_drop_append_take (by simp), List.drop_left, List.take_left]
    rfl

theorem rotateRightOnce_iterate (l : List ℤ) :
    ∀ m : ℕ, rotateRightOnce^[m] l = l.rotate (m * (l.length - 1)) := by
  intro m
  induction m with
  | zero => simp
  | succ k ih =>
    rw [Function.iterate_succ_apply', ih, rotateRightOnce_eq_rotate,
      List.length_rotate, List.rotate_rotate]
    congr 1
    ring

theorem homotopy_loop_iff (cell1 seq : List ℤ) (h : seq ≠ []) :
    ((List.range seq.length).any fun k => decide (rotateRightOnce^[k + 1] seq = cell1)) = true
      ↔ List.IsRotated seq cell1 := by
  have hn : 0 < seq.length := List.length_pos.mpr h
  rw [List.any_eq_true]
  constructor
  · rintro ⟨k, -, hdec⟩
    have hk := of_decide_eq_true hdec
    rw [rotateRightOnce_iterate] at hk
    exact ⟨_, hk⟩
  · intro hrot
    obtain ⟨j, hj, hrotj⟩ := List.isRotated_iff_mod.mp hrot
    by_cases hjn : j = seq.length
    · refine ⟨seq.length - 1, List.mem_range.mpr (by omega), ?_⟩
      apply decide_eq_true
      rw [rotateRightOnce_iterate]
      have h1 : (seq.length - 1 + 1) * (seq.length - 1) = seq.length * (seq.length - 1) := by
        congr 1
        omega
      rw [h1, ← List.rotate_mod, Nat.mul_mod_right, List.rotate_zero]
      rw [hjn, List.rotate_length] at hrotj
      exact hrotj
    · have hjlt : j < seq.length := lt_of_le_of_ne hj hjn
      refine ⟨seq.length - j - 1, List.mem_range.mpr (by omega), ?_⟩
      apply decide_eq_true
      rw [rotateRightOnce_iterate]
      have hk1 : seq.length - j - 1 + 1 = seq.length - j := by omega
      rw [hk1]
      have hmod : ((seq.length - j) * (seq.length - 1)) % seq.length = j := by
        have e1 : (seq.length - j) * (seq.length - 1) + (seq.length - j)
            = (seq.length - j) * seq.length := by
          rw [← Nat.mul_succ]
          congr 1
          omega
        have e2 : Nat.ModEq seq.length
            ((seq.length - j) * (seq.length - 1) + (seq.length - j))
            (j + (seq.length - j)) := by
          show ((seq.length - j) * (seq.length - 1) + (seq.length - j)) % seq.length
            = (j + (seq.length - j)) % seq.length
          rw [e1]
          have h3 : j + (seq.length - j) = seq.length := by omega
          rw [h3, Nat.mul_mod_left, Nat.mod_self]
        have e3 := Nat.ModEq.add_right_cancel' (seq.length - j) e2
        rw [Nat.ModEq] at e3
        rw [e3, Nat.mod_eq_of_lt hjlt]
      rw [← List.rotate_mod, hmod, hrotj]

theorem areHomotopic_iff (cell1 seq : List ℤ) (h : seq ≠ []) :
    areHomotopic cell1 seq = true ↔ List.IsRotated cell1 seq := by
  unfold areHomotopic
  by_cases h1 : cell1.length ≠ seq.length
  · rw [if_pos h1]
    simp only [Bool.false_eq_true, false_iff]
    intro hr
    exact h1 hr.perm.length_eq
  · rw [if_neg h1]
    by_cases hm : Multiset.ofList cell1 ≠ Multiset.ofList seq
    · rw [if_pos hm]
      simp only [Bool.false_eq_true, false_iff]
      intro hr
      exact hm (Multiset.coe_eq_coe.mpr hr.perm)
    · rw [if_neg hm]
      exact (homotopy_loop_iff cell1 seq h).trans List.isRotated_comm

theorem homotopic_pair_decide (l1 l2 : List ℤ) (h2 : l2 ≠ []) :
    (areHomotopic l1 l2 || areHomotopic l1.reverse l2) =
      decide (l1.length = l2.length ∧ Multiset.ofList l1 = Multiset.ofList l2
        ∧ (List.IsRotated l1 l2 ∨ List.IsRotated l1 l2.reverse)) := by
  have key : (areHomotopic l1 l2 || areHomotopic l1.reverse l2) = true ↔
      (l1.length = l2.length ∧ Multiset.ofList l1 = Multiset.ofList l2
        ∧ (List.IsRotated l1 l2 ∨ List.IsRotated l1 l2.reverse)) := by
    rw [Bool.or_eq_true, areHomotopic_iff l1 l2 h2, areHomotopic_iff l1.reverse l2 h2]
    constructor
    · rintro (hr | hr)
      · exact ⟨hr.perm.length_eq, Multiset.coe_eq_coe.mpr hr.perm, Or.inl hr⟩
      · have hr2 : List.IsRotated l1 l2.reverse :=
          List.isRotated_reverse_comm_iff.mp hr
        refine ⟨?_, ?_, Or.inr hr2⟩
        · have hlen := hr2.perm.length_eq
          simpa using hlen
        · exact Multiset.coe_eq_coe.mpr (hr2.perm.trans (List.reverse_perm l2))
    · rintro ⟨-, -, hr | hr⟩
      · exact Or.inl hr
      · exact Or.inr (List.isRotated_reverse_comm_iff.mpr hr)
  cases hb : (areHomotopic l1 l2 || areHomotopic l1.reverse l2)
  · symm
    apply decide_eq_false
    intro hp
    have hbt := key.mpr hp
    rw [hb] at hbt
    exact Bool.noConfusion hbt
  · symm
    apply decide_eq_true
    exact key.mp hb

theorem is_homotopic_to_eq (c : PyCell) (other : List ℤ) (c2 : PyCell)
    (hrev : cellReverse c = Except.ok c2) :
    is_homotopic_to c other =
      Except.ok (areHomotopic c.elements other || areHomotopic c2.elements other) := by
  unfold is_homotopic_to
  cases hb : areHomotopic c.elements other
  · rw [if_neg (by simp)]
    rw [hrev]
    show Except.ok (areHomotopic c2.elements other)
      = Except.ok (false || areHomotopic c2.elements other)
    rw [Bool.false_or]
  · rw [if_pos rfl, Bool.true_or]

/-- The regular cell `Cell((2, 3, 1))` as constructed by the embedded code. -/
def cellTwoThreeOne : PyCell :=
  PyCell.mk [2, 3, 1] "" true [] [(2, 3), (3, 1), (1, 2)]

/-- C5: for constructed cells, `is_homotopic_to` answers true exactly when
the element sequences have equal length, equal node multisets, and some
cyclic rotation of one equals the other or equals the other reversed; in
particular `Cell((1,2,3))` is homotopic to `Cell((2,3,1))`, `Cell((3,2,1))`
and `Cell((1,3,2))`, and not homotopic to `Cell((1,2,4))`. -/
theorem is_homotopic_to_characterization (l1 l2 : List ℤ) (nm1 nm2 : String)
    (r1 r2 : Bool) (p1 p2 : List (String × ℤ)) (c1 c2 : PyCell)
    (h1 : mkCell l1 nm1 r1 p1 = Except.ok c1) (h2 : mkCell l2 nm2 r2 p2 = Except.ok c2) :
    is_homotopic_to c1 c2.elements =
      Except.ok (decide (l1.length = l2.length
        ∧ Multiset.ofList l1 = Multiset.ofList l2
        ∧ (List.IsRotated l1 l2 ∨ List.IsRotated l1 l2.reverse)))
    ∧ is_homotopic_to cellOneTwoThree [2, 3, 1] = Except.ok true
    ∧ is_homotopic_to cellOneTwoThree [3, 2, 1] = Except.ok true
    ∧ is_homotopic_to cellOneTwoThree [1, 3, 2] = Except.ok true
    ∧ is_homotopic_to cellOneTwoThree [1, 2, 4] = Except.ok false := by
  refine ⟨?_, by decide, by decide, by decide, by decide⟩
  obtain ⟨hc1, hlen1⟩ := mkCell_ok_fields h1
  obtain ⟨hc2, hlen2⟩ := mkCell_ok_fields h2
  have hne : l2 ≠ [] := by
    rintro rfl
    simp at hlen2
  have hrev := cellReverse_ok h1
  subst hc1
  subst hc2
  rw [is_homotopic_to_eq _ _ _ hrev]
  show Except.ok (areHomotopic l1 l2 || areHomotopic l1.reverse l2) = _
  rw [homotopic_pair_decide l1 l2 hne]

/-- Witness for C5 at `Cell((1, 2, 3))` against `Cell((2, 3, 1))`. -/
theorem is_homotopic_to_characterization_witness :
    is_homotopic_to cellOneTwoThree cellTwoThreeOne.elements =
      Except.ok (decide (([1, 2, 3] : List ℤ).length = ([2, 3, 1] : List ℤ).length
        ∧ Multiset.ofList [1, 2, 3] = Multiset.ofList [2, 3, 1]
        ∧ (List.IsRotated ([1, 2, 3] : List ℤ) [2, 3, 1]
          ∨ List.IsRotated ([1, 2, 3] : List ℤ) ([2, 3, 1] : List ℤ).reverse))) :=
  (is_homotopic_to_characterization [1, 2, 3] [2, 3, 1] "" "" true true [] []
    cellOneTwoThree cellTwoThreeOne rfl rfl).1

end TopoNetX
